import Mathlib

/-!
Shallow embedding of the shortcut aggregation and canonicalization engine of
the keypeek applet (file src/shortcuts.rs, with the boundary in src/app.rs).

Modelling choices:
* xkb keysyms are opaque identifiers; the external xkbcommon resolver is a
  parameter (`Resolver`): `getName` models `xkb::keysym_get_name` (total) and
  `resolveName` models `Keysym::name` (optional), both deterministic.
* Rust `String` comparison is byte-wise lexicographic over UTF-8; UTF-8 byte
  order coincides with code-point order, which is the order of Lean `String`.
* The source groups bindings in a `HashMap` and then iterates it; within a
  group, members sit in input order (`Vec::push` during iteration), while the
  order of the groups themselves is unspecified. We pin the group enumeration
  to first-occurrence order of the descriptions (`keysOf`); the final sort is
  keyed by the (pairwise distinct) descriptions, so the output is the same
  for every group enumeration order.
* The provider (`cosmic_settings_config` context plus shortcuts call) is
  modelled as an optional snapshot: `none` stands for a context that cannot
  be opened, the only failure path of `load_cosmic_shortcuts`.
-/

namespace Keypeek

/-- Opaque platform key-symbol identifier (equality by value). -/
abbrev Keysym := Nat

/-- External symbol-name resolver (xkbcommon): `getName` models the total
`xkb::keysym_get_name`, `resolveName` the optional `Keysym::name`. -/
structure Resolver where
  getName : Keysym → String
  resolveName : Keysym → Option String

/-- `Modifiers` from src/shortcuts.rs: four independent flags. -/
structure Modifiers where
  ctrl : Bool
  alt : Bool
  shift : Bool
  logo : Bool
deriving DecidableEq

/-- `Modifiers::new`. -/
def Modifiers.new : Modifiers :=
  { ctrl := false, alt := false, shift := false, logo := false }

/-- `impl fmt::Display for Modifiers`: push "Super", "Ctrl", "Alt", "Shift"
for the set flags in that order, join with " + ". -/
def Modifiers.fmt (m : Modifiers) : String :=
  let parts : List String := []
  let parts := if m.logo then parts ++ ["Super"] else parts
  let parts := if m.ctrl then parts ++ ["Ctrl"] else parts
  let parts := if m.alt then parts ++ ["Alt"] else parts
  let parts := if m.shift then parts ++ ["Shift"] else parts
  String.intercalate " + " parts

/-- `KeyBinding` from src/shortcuts.rs (the `_command` field is written
`command` here). -/
structure KeyBinding where
  modifiers : Modifiers
  key : Option Keysym
  description : String
  command : String
  keybind_display : Option String
deriving DecidableEq

/-- `Direction` of the upstream `cosmic_settings_config` action crate,
as enumerated by the exhaustive match in `localize_action`. -/
inductive Direction
  | Down
  | Left
  | Right
  | Up
deriving DecidableEq

/-- `FocusDirection` of the upstream action crate. -/
inductive FocusDirection
  | Down
  | In
  | Left
  | Out
  | Right
  | Up
deriving DecidableEq

/-- `Orientation` of the upstream action crate. -/
inductive Orientation
  | Horizontal
  | Vertical
deriving DecidableEq

/-- `ResizeDirection` of the upstream action crate. -/
inductive ResizeDirection
  | Inwards
  | Outwards
deriving DecidableEq

/-- `shortcuts::action::System` of the upstream crate, as enumerated by the
exhaustive inner match in `localize_action`. -/
inductive SystemAction
  | AppLibrary
  | BrightnessDown
  | BrightnessUp
  | InputSourceSwitch
  | HomeFolder
  | KeyboardBrightnessDown
  | KeyboardBrightnessUp
  | Launcher
  | LogOut
  | LockScreen
  | Mute
  | MuteMic
  | PlayPause
  | PlayNext
  | PlayPrev
  | PowerOff
  | Screenshot
  | Suspend
  | ScreenReader
  | Terminal
  | TouchpadToggle
  | VolumeLower
  | VolumeRaise
  | WebBrowser
  | WindowSwitcher
  | WindowSwitcherPrevious
  | WorkspaceOverview
  | DisplayToggle
deriving DecidableEq

/-- `shortcuts::Action` of the upstream crate: the closed enumeration that the
match in `localize_action` covers exhaustively (no wildcard arm). -/
inductive Action
  | Close
  | Disable
  | Focus (d : FocusDirection)
  | Workspace (i : Nat)
  | LastWorkspace
  | Maximize
  | Fullscreen
  | Minimize
  | Move (d : Direction)
  | MoveToLastWorkspace
  | SendToLastWorkspace
  | MoveToNextOutput
  | SendToNextOutput
  | MoveToNextWorkspace
  | SendToNextWorkspace
  | MoveToPreviousWorkspace
  | SendToPreviousWorkspace
  | MoveToOutput (d : Direction)
  | SendToOutput (d : Direction)
  | MoveToPreviousOutput
  | SendToPreviousOutput
  | MoveToWorkspace (i : Nat)
  | SendToWorkspace (i : Nat)
  | NextOutput
  | NextWorkspace
  | Orientation (o : Orientation)
  | PreviousOutput
  | PreviousWorkspace
  | Resizing (r : ResizeDirection)
  | SwapWindow
  | SwitchOutput (d : Direction)
  | ToggleOrientation
  | ToggleStacking
  | ToggleSticky
  | ToggleTiling
  | ToggleWindowFloating
  | Debug
  | MigrateWorkspaceToNextOutput
  | MigrateWorkspaceToOutput (d : Direction)
  | MigrateWorkspaceToPreviousOutput
  | Terminate
  | System (s : SystemAction)
  | ZoomIn
  | ZoomOut
  | Spawn (task : String)
deriving DecidableEq

/-- `localize_action` from src/shortcuts.rs. -/
def localize_action (action : Action) : String :=
  match action with
  | .Close => "Close window"
  | .Disable => "Disable"
  | .Focus .Down => "Focus down"
  | .Focus .In => "Focus in"
  | .Focus .Left => "Focus left"
  | .Focus .Out => "Focus out"
  | .Focus .Right => "Focus right"
  | .Focus .Up => "Focus up"
  | .Workspace i => "Workspace " ++ toString i
  | .LastWorkspace => "Last workspace"
  | .Maximize => "Maximize window"
  | .Fullscreen => "Fullscreen window"
  | .Minimize => "Minimize window"
  | .Move .Down => "Move window down"
  | .Move .Right => "Move window right"
  | .Move .Left => "Move window left"
  | .Move .Up => "Move window up"
  | .MoveToLastWorkspace => "Move window to last workspace"
  | .SendToLastWorkspace => "Move window to last workspace"
  | .MoveToNextOutput => "Move window to next display"
  | .SendToNextOutput => "Move window to next display"
  | .MoveToNextWorkspace => "Move window to next workspace"
  | .SendToNextWorkspace => "Move window to next workspace"
  | .MoveToPreviousWorkspace => "Move window to prev wrkspace"
  | .SendToPreviousWorkspace => "Move window to prev wrkspace"
  | .MoveToOutput .Down => "Move window one monitor down"
  | .SendToOutput .Down => "Move window one monitor down"
  | .MoveToOutput .Left => "Move window one monitor left"
  | .SendToOutput .Left => "Move window one monitor left"
  | .MoveToOutput .Right => "Move window one monitor right"
  | .SendToOutput .Right => "Move window one monitor right"
  | .MoveToOutput .Up => "Move window one monitor up"
  | .SendToOutput .Up => "Move window one monitor up"
  | .MoveToPreviousOutput => "Move window to prev display"
  | .SendToPreviousOutput => "Move window to prev display"
  | .MoveToWorkspace i => "Move window to workspace " ++ toString i
  | .SendToWorkspace i => "Move window to workspace " ++ toString i
  | .NextOutput => "Focus next output"
  | .NextWorkspace => "Focus next workspace"
  | .Orientation .Horizontal => "Set horizontal orientation"
  | .Orientation .Vertical => "Set vertical orientation"
  | .PreviousOutput => "Focus previous output"
  | .PreviousWorkspace => "Focus previous workspace"
  | .Resizing .Inwards => "Resize window inwards"
  | .Resizing .Outwards => "Resize window outwards"
  | .SwapWindow => "Swap window"
  | .SwitchOutput .Down => "Switch to output down"
  | .SwitchOutput .Left => "Switch to output left"
  | .SwitchOutput .Right => "Switch to output right"
  | .SwitchOutput .Up => "Switch to output up"
  | .ToggleOrientation => "Toggle orientation"
  | .ToggleStacking => "Toggle window stacking"
  | .ToggleSticky => "Toggle sticky window"
  | .ToggleTiling => "Toggle window tiling"
  | .ToggleWindowFloating => "Toggle window floating"
  | .Debug => "Debug"
  | .MigrateWorkspaceToNextOutput => "Migrate workspace to next output"
  | .MigrateWorkspaceToOutput .Down => "Migrate workspace down"
  | .MigrateWorkspaceToOutput .Left => "Migrate workspace left"
  | .MigrateWorkspaceToOutput .Right => "Migrate workspace right"
  | .MigrateWorkspaceToOutput .Up => "Migrate workspace up"
  | .MigrateWorkspaceToPreviousOutput => "Migrate workspace to previous output"
  | .Terminate => "Terminate"
  | .System .AppLibrary => "Open the app library"
  | .System .BrightnessDown => "Decrease display brightness"
  | .System .BrightnessUp => "Increase display brightness"
  | .System .InputSourceSwitch => "Switch input source"
  | .System .HomeFolder => "Open home folder"
  | .System .KeyboardBrightnessDown => "Decrease keyboard brightness"
  | .System .KeyboardBrightnessUp => "Increase keyboard brightness"
  | .System .Launcher => "Open the Launcher"
  | .System .LogOut => "Log Out"
  | .System .LockScreen => "Lock the screen"
  | .System .Mute => "Mute audio output"
  | .System .MuteMic => "Mutes microphone input"
  | .System .PlayPause => "Play/pause"
  | .System .PlayNext => "Next track"
  | .System .PlayPrev => "Previous track"
  | .System .PowerOff => "Power off"
  | .System .Screenshot => "Take a screenshot"
  | .System .Suspend => "Suspend"
  | .System .ScreenReader => "Toggle screen reader"
  | .System .Terminal => "Open a terminal"
  | .System .TouchpadToggle => "Toggle touchpad"
  | .System .VolumeLower => "Decrease audio output volume"
  | .System .VolumeRaise => "Increase audio output volume"
  | .System .WebBrowser => "Open a web browser"
  | .System .WindowSwitcher => "Switch between open windows"
  | .System .WindowSwitcherPrevious => "Switch between open windows reversed"
  | .System .WorkspaceOverview => "Open the workspace overview"
  | .System .DisplayToggle => "Toggle internal display"
  | .ZoomIn => "Zoom in"
  | .ZoomOut => "Zoom out"
  | .Spawn task => task

/-- Whether the action is the explicit disable marker. -/
def Action.isDisable : Action → Bool
  | .Disable => true
  | _ => false

/-- Whether the action is the free-form spawn variant. -/
def Action.isSpawn : Action → Bool
  | .Spawn _ => true
  | _ => false

/-- Rust `derive(Debug)` text of a `Direction` value. -/
def Direction.debugStr : Direction → String
  | .Down => "Down"
  | .Left => "Left"
  | .Right => "Right"
  | .Up => "Up"

/-- Rust `derive(Debug)` text of a `FocusDirection` value. -/
def FocusDirection.debugStr : FocusDirection → String
  | .Down => "Down"
  | .In => "In"
  | .Left => "Left"
  | .Out => "Out"
  | .Right => "Right"
  | .Up => "Up"

/-- Rust `derive(Debug)` text of an `Orientation` value. -/
def Orientation.debugStr : Orientation → String
  | .Horizontal => "Horizontal"
  | .Vertical => "Vertical"

/-- Rust `derive(Debug)` text of a `ResizeDirection` value. -/
def ResizeDirection.debugStr : ResizeDirection → String
  | .Inwards => "Inwards"
  | .Outwards => "Outwards"

/-- Rust `derive(Debug)` text of a `System` action value
(`format!("{:?}", s)` in the command extraction). -/
def SystemAction.debugStr : SystemAction → String
  | .AppLibrary => "AppLibrary"
  | .BrightnessDown => "BrightnessDown"
  | .BrightnessUp => "BrightnessUp"
  | .InputSourceSwitch => "InputSourceSwitch"
  | .HomeFolder => "HomeFolder"
  | .KeyboardBrightnessDown => "KeyboardBrightnessDown"
  | .KeyboardBrightnessUp => "KeyboardBrightnessUp"
  | .Launcher => "Launcher"
  | .LogOut => "LogOut"
  | .LockScreen => "LockScreen"
  | .Mute => "Mute"
  | .MuteMic => "MuteMic"
  | .PlayPause => "PlayPause"
  | .PlayNext => "PlayNext"
  | .PlayPrev => "PlayPrev"
  | .PowerOff => "PowerOff"
  | .Screenshot => "Screenshot"
  | .Suspend => "Suspend"
  | .ScreenReader => "ScreenReader"
  | .Terminal => "Terminal"
  | .TouchpadToggle => "TouchpadToggle"
  | .VolumeLower => "VolumeLower"
  | .VolumeRaise => "VolumeRaise"
  | .WebBrowser => "WebBrowser"
  | .WindowSwitcher => "WindowSwitcher"
  | .WindowSwitcherPrevious => "WindowSwitcherPrevious"
  | .WorkspaceOverview => "WorkspaceOverview"
  | .DisplayToggle => "DisplayToggle"

/-- Rust `derive(Debug)` text of an `Action` value
(`format!("{:?}", action)` in the catch-all command arm). -/
def Action.debugStr : Action → String
  | .Close => "Close"
  | .Disable => "Disable"
  | .Focus d => "Focus(" ++ d.debugStr ++ ")"
  | .Workspace i => "Workspace(" ++ toString i ++ ")"
  | .LastWorkspace => "LastWorkspace"
  | .Maximize => "Maximize"
  | .Fullscreen => "Fullscreen"
  | .Minimize => "Minimize"
  | .Move d => "Move(" ++ d.debugStr ++ ")"
  | .MoveToLastWorkspace => "MoveToLastWorkspace"
  | .SendToLastWorkspace => "SendToLastWorkspace"
  | .MoveToNextOutput => "MoveToNextOutput"
  | .SendToNextOutput => "SendToNextOutput"
  | .MoveToNextWorkspace => "MoveToNextWorkspace"
  | .SendToNextWorkspace => "SendToNextWorkspace"
  | .MoveToPreviousWorkspace => "MoveToPreviousWorkspace"
  | .SendToPreviousWorkspace => "SendToPreviousWorkspace"
  | .MoveToOutput d => "MoveToOutput(" ++ d.debugStr ++ ")"
  | .SendToOutput d => "SendToOutput(" ++ d.debugStr ++ ")"
  | .MoveToPreviousOutput => "MoveToPreviousOutput"
  | .SendToPreviousOutput => "SendToPreviousOutput"
  | .MoveToWorkspace i => "MoveToWorkspace(" ++ toString i ++ ")"
  | .SendToWorkspace i => "SendToWorkspace(" ++ toString i ++ ")"
  | .NextOutput => "NextOutput"
  | .NextWorkspace => "NextWorkspace"
  | .Orientation o => "Orientation(" ++ o.debugStr ++ ")"
  | .PreviousOutput => "PreviousOutput"
  | .PreviousWorkspace => "PreviousWorkspace"
  | .Resizing r => "Resizing(" ++ r.debugStr ++ ")"
  | .SwapWindow => "SwapWindow"
  | .SwitchOutput d => "SwitchOutput(" ++ d.debugStr ++ ")"
  | .ToggleOrientation => "ToggleOrientation"
  | .ToggleStacking => "ToggleStacking"
  | .ToggleSticky => "ToggleSticky"
  | .ToggleTiling => "ToggleTiling"
  | .ToggleWindowFloating => "ToggleWindowFloating"
  | .Debug => "Debug"
  | .MigrateWorkspaceToNextOutput => "MigrateWorkspaceToNextOutput"
  | .MigrateWorkspaceToOutput d => "MigrateWorkspaceToOutput(" ++ d.debugStr ++ ")"
  | .MigrateWorkspaceToPreviousOutput => "MigrateWorkspaceToPreviousOutput"
  | .Terminate => "Terminate"
  | .System s => "System(" ++ s.debugStr ++ ")"
  | .ZoomIn => "ZoomIn"
  | .ZoomOut => "ZoomOut"
  | .Spawn task => "Spawn(" ++ "\"" ++ task ++ "\"" ++ ")"

/-- Raw binding as supplied by the settings provider (`shortcuts::Binding` of
the upstream crate): modifier flags, optional keysym, optional explicit
description override. -/
structure Binding where
  modifiers : Modifiers
  key : Option Keysym
  description : Option String
deriving DecidableEq

/-- Per-entry body of the conversion loop of `load_cosmic_shortcuts`
(src/shortcuts.rs lines 242-291): copy the modifier flags and the keysym,
skip the entry when the action is `Disable`, pick the explicit description
over the localized action, extract the command text, and start with
`keybind_display` unset. -/
def normalizeEntry (e : Binding × Action) : Option KeyBinding :=
  let binding := e.1
  let action := e.2
  let m : Modifiers :=
    { ctrl := binding.modifiers.ctrl
      alt := binding.modifiers.alt
      shift := binding.modifiers.shift
      logo := binding.modifiers.logo }
  let keysym : Option Keysym := binding.key
  if action.isDisable then
    none
  else
    let description :=
      match binding.description with
      | some desc => desc
      | none => localize_action action
    let command :=
      match action with
      | .Spawn cmd => cmd
      | .System s => s.debugStr
      | _ => action.debugStr
    some
      { modifiers := m
        key := keysym
        description := description
        command := command
        keybind_display := none }

/-- Code-point-level test that `p` is an initial segment of `s`. The two
patterns used by the source ("KEY_" and "XF86") are pure ASCII, and an ASCII
string is a byte-level initial segment of a UTF-8 string exactly when it is a
code-point-level one, so this coincides with Rust `starts_with`. -/
def strStarts (s p : String) : Bool :=
  p.data.isPrefixOf s.data

/-- `key_name.strip_prefix("KEY_").unwrap_or(&key_name)` ("KEY_" is four
characters, so dropping four characters drops exactly it). -/
def stripKEY (key_name : String) : String :=
  if strStarts key_name "KEY_" then String.mk (key_name.data.drop 4) else key_name

/-- The raw single-binding rendering shared by `impl fmt::Display for
KeyBinding` (else-branch) and the closure inside the merge loop: modifier
display string if non-empty, then the resolved key name with the "KEY_"
convention stripped, joined with " + ". -/
def fmtRaw (R : Resolver) (b : KeyBinding) : String :=
  let parts : List String := []
  let mod_str := b.modifiers.fmt
  let parts := if mod_str = "" then parts else parts ++ [mod_str]
  let parts :=
    match b.key with
    | some keysym => parts ++ [stripKEY (R.getName keysym)]
    | none => parts
  String.intercalate " + " parts

/-- `impl fmt::Display for KeyBinding`: a pre-formatted `keybind_display`
wins; otherwise the raw single-binding rendering. -/
def KeyBinding.fmt (R : Resolver) (b : KeyBinding) : String :=
  match b.keybind_display with
  | some display => display
  | none => fmtRaw R b

/-- The distinct description strings of the list, in first-occurrence order:
the keys of the grouping `HashMap`, with the (unspecified) map iteration
order pinned to first-occurrence order. -/
def keysOf : List KeyBinding → List String
  | [] => []
  | b :: rest => b.description :: (keysOf rest).filter (fun d => d != b.description)

/-- The group of a description: all bindings carrying it, in input order
(the `Vec` each entry is pushed to during the grouping loop). -/
def groupOf (bs : List KeyBinding) (d : String) : List KeyBinding :=
  bs.filter (fun b => b.description == d)

/-- The concatenated display of a group: the first two members (`take(2)`),
each rendered raw, joined with " / ". -/
def concatKeybind (R : Resolver) (bindings : List KeyBinding) : String :=
  String.intercalate " / " ((bindings.take 2).map (fmtRaw R))

/-- Body of the merge loop for one group (src/shortcuts.rs lines 304-339):
skip empty groups, clone the first binding as the template, and when the
group has more than one member set its `keybind_display` to the
concatenated rendering. -/
def mergeGroup (R : Resolver) (bindings : List KeyBinding) : List KeyBinding :=
  match bindings with
  | [] => []
  | b0 :: rest =>
    if rest.isEmpty then [b0]
    else [{ b0 with keybind_display := some (concatKeybind R (b0 :: rest)) }]

/-- The grouping-and-merging stage (src/shortcuts.rs lines 293-339). -/
def mergeByDescription (R : Resolver) (bs : List KeyBinding) : List KeyBinding :=
  (keysOf bs).flatMap (fun d => mergeGroup R (groupOf bs d))

/-- Whether a record has a keysym that resolves to a name starting with
"XF86" (`binding.key.is_some_and(|x| x.name().is_some_and(|x|
x.starts_with("XF86")))`). -/
def hasXF86Key (R : Resolver) (binding : KeyBinding) : Bool :=
  binding.key.any fun x => (R.resolveName x).any fun n => strStarts n "XF86"

/-- The noise-filter stage (src/shortcuts.rs lines 341-346): retain the
records without an XF86 key. -/
def removeXF86 (R : Resolver) (bs : List KeyBinding) : List KeyBinding :=
  bs.filter fun binding => !hasXF86Key R binding

/-- The sorting stage (src/shortcuts.rs lines 353-354): stable sort by
ascending description. -/
def sortByDescription (bs : List KeyBinding) : List KeyBinding :=
  bs.mergeSort fun a b => decide (a.description ≤ b.description)

/-- The whole pure pipeline of `load_cosmic_shortcuts` on a raw snapshot:
normalize each entry, group and merge by description, drop XF86 records,
sort by description. -/
def buildShortcuts (R : Resolver) (raw : List (Binding × Action)) : List KeyBinding :=
  sortByDescription (removeXF86 R (mergeByDescription R (raw.filterMap normalizeEntry)))

/-- `load_cosmic_shortcuts`: fails exactly when the settings context cannot
be opened (`provider = none`); otherwise runs the pipeline on the snapshot. -/
def load_cosmic_shortcuts (R : Resolver) (provider : Option (List (Binding × Action))) :
    Except String (List KeyBinding) :=
  match provider with
  | none => Except.error "failed to open cosmic settings config context"
  | some raw => Except.ok (buildShortcuts R raw)

/-- `AppModel::init` boundary (src/app.rs lines 66-70):
`load_cosmic_shortcuts().unwrap_or_else(|e| Vec::new())`. -/
def initShortcuts (R : Resolver) (provider : Option (List (Binding × Action))) :
    List KeyBinding :=
  match load_cosmic_shortcuts R provider with
  | Except.ok shortcuts => shortcuts
  | Except.error _ => []

/-- The modifier display strings as the spec words them (refinement-side
definition): exactly the asserted flags, in the fixed order Super, Ctrl,
Alt, Shift, joined with " + ", empty when no flag is set. -/
def modifiersSpecTable (m : Modifiers) : String :=
  match m.logo, m.ctrl, m.alt, m.shift with
  | false, false, false, false => ""
  | false, false, false, true => "Shift"
  | false, false, true, false => "Alt"
  | false, false, true, true => "Alt + Shift"
  | false, true, false, false => "Ctrl"
  | false, true, false, true => "Ctrl + Shift"
  | false, true, true, false => "Ctrl + Alt"
  | false, true, true, true => "Ctrl + Alt + Shift"
  | true, false, false, false => "Super"
  | true, false, false, true => "Super + Shift"
  | true, false, true, false => "Super + Alt"
  | true, false, true, true => "Super + Alt + Shift"
  | true, true, false, false => "Super + Ctrl"
  | true, true, false, true => "Super + Ctrl + Shift"
  | true, true, true, false => "Super + Ctrl + Alt"
  | true, true, true, true => "Super + Ctrl + Alt + Shift"

/-! Concrete fixtures used by the witness theorems. In the resolver below,
keysym 0 is an ordinary key named "KEY_a", keysym 1 an ordinary key named
"KEY_b", keysym 9 a media key named "XF86AudioMute", and keysym 5 has no
resolvable name. -/

def wR : Resolver :=
  { getName := fun k =>
      if k = 0 then "KEY_a" else if k = 1 then "KEY_b"
      else if k = 9 then "XF86AudioMute" else "c"
    resolveName := fun k =>
      if k = 0 then some "a" else if k = 1 then some "b"
      else if k = 9 then some "XF86AudioMute" else none }

def wMods0 : Modifiers := { ctrl := false, alt := false, shift := false, logo := true }

def wMods1 : Modifiers := { ctrl := true, alt := false, shift := false, logo := false }

def wB0 : KeyBinding :=
  { modifiers := wMods0, key := some 0, description := "D", command := "c0"
    keybind_display := none }

def wB1 : KeyBinding :=
  { modifiers := wMods1, key := some 1, description := "D", command := "c1"
    keybind_display := none }

def wB2 : KeyBinding :=
  { modifiers := Modifiers.new, key := none, description := "D", command := "c2"
    keybind_display := none }

def wB3 : KeyBinding :=
  { modifiers := wMods0, key := none, description := "E", command := "c3"
    keybind_display := none }

def wB4 : KeyBinding :=
  { modifiers := Modifiers.new, key := some 5, description := "F", command := "c4"
    keybind_display := none }

def wX0 : KeyBinding :=
  { modifiers := Modifiers.new, key := some 9, description := "D", command := "x0"
    keybind_display := none }

def wDisp : KeyBinding :=
  { modifiers := wMods0, key := some 0, description := "D", command := "c"
    keybind_display := some "X / Y" }

def wBs : List KeyBinding := [wB0, wB1, wB2, wB3]

def wNbs : List KeyBinding := [wX0, wB2, wB4]

def wXbs1 : List KeyBinding := [wX0, wB1]

def wXbs2 : List KeyBinding := [wB1, wX0]

/-! Supporting lemmas about the grouping stage. -/

theorem mem_groupOf {bs : List KeyBinding} {d : String} {x : KeyBinding} :
    x ∈ groupOf bs d ↔ x ∈ bs ∧ x.description = d := by
  simp [groupOf, List.mem_filter]

theorem desc_of_mem_groupOf {bs : List KeyBinding} {d : String} {x : KeyBinding}
    (h : x ∈ groupOf bs d) : x.description = d :=
  (mem_groupOf.mp h).2

theorem mem_keysOf {bs : List KeyBinding} {d : String} :
    d ∈ keysOf bs ↔ ∃ b ∈ bs, b.description = d := by
  induction bs with
  | nil => simp [keysOf]
  | cons b rest ih =>
    simp only [keysOf, List.mem_cons, List.mem_filter, bne_iff_ne, ne_eq, ih]
    constructor
    · rintro (rfl | ⟨⟨x, hx, rfl⟩, _⟩)
      · exact ⟨b, Or.inl rfl, rfl⟩
      · exact ⟨x, Or.inr hx, rfl⟩
    · rintro ⟨x, hx, rfl⟩
      by_cases hd : x.description = b.description
      · exact Or.inl hd
      · rcases hx with rfl | hx
        · exact Or.inl rfl
        · exact Or.inr ⟨⟨x, hx, rfl⟩, hd⟩

theorem keysOf_nodup (bs : List KeyBinding) : (keysOf bs).Nodup := by
  induction bs with
  | nil => simp [keysOf]
  | cons b rest ih =>
    rw [keysOf, List.nodup_cons]
    refine ⟨fun hmem => ?_, ih.filter _⟩
    rcases List.mem_filter.mp hmem with ⟨-, hne⟩
    exact absurd rfl (bne_iff_ne.mp hne)

theorem groupOf_ne_nil_of_mem_keysOf {bs : List KeyBinding} {d : String}
    (h : d ∈ keysOf bs) : groupOf bs d ≠ [] := by
  rcases mem_keysOf.mp h with ⟨b, hb, hd⟩
  intro hnil
  have : b ∈ groupOf bs d := mem_groupOf.mpr ⟨hb, hd⟩
  rw [hnil] at this
  exact absurd this (List.not_mem_nil b)

theorem mem_keysOf_of_groupOf_cons {bs : List KeyBinding} {d : String}
    {b0 : KeyBinding} {rest : List KeyBinding} (h : groupOf bs d = b0 :: rest) :
    d ∈ keysOf bs := by
  have hb0 : b0 ∈ groupOf bs d := by rw [h]; exact List.mem_cons_self b0 rest
  rcases mem_groupOf.mp hb0 with ⟨hmem, hd⟩
  exact mem_keysOf.mpr ⟨b0, hmem, hd⟩

theorem mergeGroup_cons (R : Resolver) (b0 : KeyBinding) (rest : List KeyBinding) :
    mergeGroup R (b0 :: rest) =
      [{ b0 with keybind_display :=
          if rest.isEmpty then b0.keybind_display
          else some (concatKeybind R (b0 :: rest)) }] := by
  cases rest <;> rfl

theorem desc_of_mem_mergeGroup {R : Resolver} {bs : List KeyBinding} {d : String}
    {r : KeyBinding} (h : r ∈ mergeGroup R (groupOf bs d)) : r.description = d := by
  cases hg : groupOf bs d with
  | nil => rw [hg] at h; exact absurd h (List.not_mem_nil r)
  | cons b0 rest =>
    rw [hg, mergeGroup_cons, List.mem_singleton] at h
    have hb0 : b0.description = d :=
      desc_of_mem_groupOf (hg ▸ List.mem_cons_self b0 rest)
    rw [h]
    exact hb0

theorem filter_flatMap_mergeGroups (R : Resolver) (bs : List KeyBinding)
    (ks : List String) (hks : ks.Nodup) (d : String) :
    (ks.flatMap fun k => mergeGroup R (groupOf bs k)).filter
        (fun r => r.description == d) =
      if d ∈ ks then mergeGroup R (groupOf bs d) else [] := by
  induction ks with
  | nil => simp
  | cons k ks ih =>
    rcases List.nodup_cons.mp hks with ⟨hk, hks2⟩
    rw [List.flatMap_cons, List.filter_append, ih hks2]
    by_cases hkd : k = d
    · subst hkd
      have hfull :
          (mergeGroup R (groupOf bs k)).filter (fun r => r.description == k) =
            mergeGroup R (groupOf bs k) :=
        List.filter_eq_self.mpr fun r hr => beq_iff_eq.mpr (desc_of_mem_mergeGroup hr)
      rw [hfull, if_neg hk, if_pos (List.mem_cons_self k ks), List.append_nil]
    · have hempty :
          (mergeGroup R (groupOf bs k)).filter (fun r => r.description == d) = [] :=
        List.filter_eq_nil_iff.mpr fun r hr hbeq =>
          hkd ((desc_of_mem_mergeGroup hr).symm.trans (beq_iff_eq.mp hbeq))
      rw [hempty, List.nil_append]
      by_cases hd : d ∈ ks
      · rw [if_pos hd, if_pos (List.mem_cons_of_mem k hd)]
      · rw [if_neg hd, if_neg]
        intro hmem
        rcases List.mem_cons.mp hmem with h | h
        · exact hkd h.symm
        · exact hd h

theorem filter_mergeByDescription (R : Resolver) (bs : List KeyBinding) (d : String) :
    (mergeByDescription R bs).filter (fun r => r.description == d) =
      if d ∈ keysOf bs then mergeGroup R (groupOf bs d) else [] :=
  filter_flatMap_mergeGroups R bs (keysOf bs) (keysOf_nodup bs) d

theorem map_desc_flatMap_mergeGroups (R : Resolver) (bs : List KeyBinding)
    (ks : List String) (h : ∀ k ∈ ks, groupOf bs k ≠ []) :
    (ks.flatMap fun k => mergeGroup R (groupOf bs k)).map
        (fun r => r.description) = ks := by
  induction ks with
  | nil => simp
  | cons k ks ih =>
    rw [List.flatMap_cons, List.map_append, ih fun x hx => h x (List.mem_cons_of_mem k hx)]
    cases hg : groupOf bs k with
    | nil => exact absurd hg (h k (List.mem_cons_self k ks))
    | cons b0 rest =>
      have hb0 : b0.description = k :=
        desc_of_mem_groupOf (hg ▸ List.mem_cons_self b0 rest)
      rw [mergeGroup_cons]
      simp [hb0]

theorem map_desc_mergeByDescription (R : Resolver) (bs : List KeyBinding) :
    (mergeByDescription R bs).map (fun r => r.description) = keysOf bs :=
  map_desc_flatMap_mergeGroups R bs (keysOf bs)
    fun _ hk => groupOf_ne_nil_of_mem_keysOf hk

theorem concatKeybind_pair (R : Resolver) (b0 b1 : KeyBinding)
    (rest : List KeyBinding) :
    concatKeybind R (b0 :: b1 :: rest) = fmtRaw R b0 ++ " / " ++ fmtRaw R b1 := rfl

theorem intercalate_pair (s a b : String) : String.intercalate s [a, b] = a ++ s ++ b := rfl

theorem intercalate_single (s a : String) : String.intercalate s [a] = a := rfl

/-- The one output record contributed by a nonempty group: the first member
as template, with the concatenated display when the group has a second
member. -/
theorem filter_merge_of_groupOf_cons (R : Resolver) (bs : List KeyBinding)
    (d : String) (b0 : KeyBinding) (rest : List KeyBinding)
    (h : groupOf bs d = b0 :: rest) :
    (mergeByDescription R bs).filter (fun r => r.description == d) =
      [{ b0 with keybind_display :=
          if rest.isEmpty then b0.keybind_display
          else some (concatKeybind R (b0 :: rest)) }] := by
  rw [filter_mergeByDescription, if_pos (mem_keysOf_of_groupOf_cons h), h,
    mergeGroup_cons]

theorem removeXF86_filter_comm (R : Resolver) (l : List KeyBinding) (d : String) :
    (removeXF86 R l).filter (fun r => r.description == d) =
      removeXF86 R (l.filter fun r => r.description == d) := by
  rw [removeXF86, removeXF86, List.filter_filter, List.filter_filter]
  exact List.filter_congr fun a _ => Bool.and_comm _ _

theorem hasXF86Key_display (R : Resolver) (b : KeyBinding) (o : Option String) :
    hasXF86Key R { b with keybind_display := o } = hasXF86Key R b := rfl

theorem hasXF86Key_eq_true_iff {R : Resolver} {b : KeyBinding} :
    hasXF86Key R b = true ↔
      ∃ k n, b.key = some k ∧ R.resolveName k = some n ∧ strStarts n "XF86" = true := by
  cases hk : b.key with
  | none => simp [hasXF86Key, hk]
  | some k =>
    cases hn : R.resolveName k with
    | none => simp [hasXF86Key, hk, hn]
    | some n => simp [hasXF86Key, hk, hn]

theorem filterMap_normalize_filter_disable (raw : List (Binding × Action)) :
    (raw.filter fun e => !e.2.isDisable).filterMap normalizeEntry =
      raw.filterMap normalizeEntry := by
  induction raw with
  | nil => rfl
  | cons e raw ih =>
    rw [List.filter_cons, List.filterMap_cons]
    by_cases hd : e.2.isDisable = true
    · have hnone : normalizeEntry e = none := by simp [normalizeEntry, hd]
      simp [hd, hnone, ih]
    · have hb : e.2.isDisable = false := by simpa using hd
      simp [hb, List.filterMap_cons, ih]

theorem append_left_ne_empty (s t : String) (h : s ≠ "") : s ++ t ≠ "" := by
  intro he
  have hlen : (s ++ t).length = 0 := by rw [he]; rfl
  rw [String.length_append] at hlen
  have hs : s.length = 0 := by omega
  apply h
  cases s with
  | mk data =>
    have : data = [] := List.length_eq_zero.mp hs
    rw [this]

/-! The claim theorems. -/

/-- C1: The grouper/merger partitions normalized bindings into groups keyed
by exact description equality; a group of size at least two is represented
by exactly one output record, whose keybind_display is the " / "-join of the
first two members individually formatted by the single-binding rule, with
members beyond the second contributing nothing; a group of size one passes
through unchanged with keybind_display unset. -/
theorem grouping_correct (R : Resolver) (bs : List KeyBinding) (d : String)
    (h0 : ∀ b ∈ bs, b.keybind_display = none) :
    (∀ b0 b1 rest, groupOf bs d = b0 :: b1 :: rest →
      (mergeByDescription R bs).filter (fun r => r.description == d) =
        [{ b0 with keybind_display := some (fmtRaw R b0 ++ " / " ++ fmtRaw R b1) }])
    ∧ (∀ b, groupOf bs d = [b] →
      (mergeByDescription R bs).filter (fun r => r.description == d) = [b]
        ∧ b.keybind_display = none) := by
  constructor
  · intro b0 b1 rest hg
    rw [filter_merge_of_groupOf_cons R bs d b0 (b1 :: rest) hg]
    simp [concatKeybind_pair]
  · intro b hg
    have hb : b ∈ bs := (mem_groupOf.mp (hg ▸ List.mem_cons_self b [])).1
    refine ⟨?_, h0 b hb⟩
    rw [filter_mergeByDescription, if_pos (mem_keysOf_of_groupOf_cons hg), hg]
    rfl

/-- Witness for C1 at a concrete snapshot: the description "D" is shared by
three bindings and yields one record displaying only the first two formats;
the description "E" has one binding and passes through unchanged. -/
theorem grouping_correct_witness :
    (mergeByDescription wR wBs).filter (fun r => r.description == "D") =
        [{ wB0 with keybind_display := some "Super + a / Ctrl + b" }]
    ∧ (mergeByDescription wR wBs).filter (fun r => r.description == "E") = [wB3]
    ∧ wB3.keybind_display = none := by
  have hnone : ∀ b ∈ wBs, b.keybind_display = none := by
    simp [wBs, wB0, wB1, wB2, wB3, wMods0, wMods1]
  have hD := (grouping_correct wR wBs "D" hnone).1 wB0 wB1 [wB2] (by decide)
  have hE := (grouping_correct wR wBs "E" hnone).2 wB3 (by decide)
  exact ⟨hD.trans (by decide), hE.1, hE.2⟩

/-- C9 (implicit): within each description group the members keep stable
input-snapshot order (the group is an in-order sublist of the input), so the
merged record is templated on the first member of the group in snapshot
order — its modifiers, key and command fields are the first member's — and
the concatenated display is built from the group in that order. -/
theorem group_order_and_template (R : Resolver) (bs : List KeyBinding) (d : String)
    (b0 : KeyBinding) (rest : List KeyBinding) (h : groupOf bs d = b0 :: rest) :
    (groupOf bs d).Sublist bs
    ∧ (mergeByDescription R bs).filter (fun r => r.description == d) =
        [{ modifiers := b0.modifiers, key := b0.key, description := b0.description
           command := b0.command
           keybind_display :=
             if rest.isEmpty then b0.keybind_display
             else some (concatKeybind R (b0 :: rest)) }] :=
  ⟨List.filter_sublist bs, filter_merge_of_groupOf_cons R bs d b0 rest h⟩

/-- Witness for C9: at the concrete snapshot the group of "D" is the
in-order sublist [wB0, wB1, wB2] of the input and the merged record carries
the modifiers, key and command of wB0. -/
theorem group_order_and_template_witness :
    (groupOf wBs "D").Sublist wBs
    ∧ (mergeByDescription wR wBs).filter (fun r => r.description == "D") =
        [{ modifiers := wB0.modifiers, key := wB0.key, description := wB0.description
           command := wB0.command
           keybind_display := some "Super + a / Ctrl + b" }] := by
  have h := group_order_and_template wR wBs "D" wB0 [wB1, wB2] (by decide)
  exact ⟨h.1, h.2.trans (by decide)⟩

/-- C10 (implicit): the noise filter runs after merging and inspects only
the merged record's retained key (the first group member's key): a
multi-binding group whose first member resolves to an XF86 key disappears
entirely even if later members are ordinary, while a group whose first
member is ordinary survives even when the second member shown in the
display is a media key. -/
theorem xf86_after_merge (R : Resolver) (bs : List KeyBinding) (d : String)
    (b0 : KeyBinding) (rest : List KeyBinding) (h : groupOf bs d = b0 :: rest) :
    (hasXF86Key R b0 = true →
      (removeXF86 R (mergeByDescription R bs)).filter
        (fun r => r.description == d) = [])
    ∧ (hasXF86Key R b0 = false →
      (removeXF86 R (mergeByDescription R bs)).filter
          (fun r => r.description == d) =
        [{ b0 with keybind_display :=
            if rest.isEmpty then b0.keybind_display
            else some (concatKeybind R (b0 :: rest)) }]) := by
  have hF := filter_merge_of_groupOf_cons R bs d b0 rest h
  constructor
  · intro hx
    rw [removeXF86_filter_comm, hF, removeXF86, List.filter_cons]
    simp [hasXF86Key_display, hx]
  · intro hx
    rw [removeXF86_filter_comm, hF, removeXF86, List.filter_cons]
    simp [hasXF86Key_display, hx]

/-- Witness for C10: with the same two bindings in the two orders, the group
whose first member has the XF86 key vanishes, while the group whose first
member is ordinary survives and shows the XF86 name as the second format. -/
theorem xf86_after_merge_witness :
    (removeXF86 wR (mergeByDescription wR wXbs1)).filter
        (fun r => r.description == "D") = []
    ∧ (removeXF86 wR (mergeByDescription wR wXbs2)).filter
        (fun r => r.description == "D") =
      [{ wB1 with keybind_display := some "Ctrl + b / XF86AudioMute" }] := by
  have h1 := (xf86_after_merge wR wXbs1 "D" wX0 [wB1] (by decide)).1 (by decide)
  have h2 := (xf86_after_merge wR wXbs2 "D" wB1 [wX0] (by decide)).2 (by decide)
  exact ⟨h1, h2.trans (by decide)⟩

/-- C2: A raw binding whose action is the explicit disable marker contributes
no record to the pipeline output, regardless of its other fields: its
normalization is `none`, and the whole pipeline output is unchanged when all
disabled entries are deleted from the snapshot. -/
theorem disabled_excluded (R : Resolver) (raw : List (Binding × Action)) :
    (∀ b : Binding, normalizeEntry (b, Action.Disable) = none)
    ∧ buildShortcuts R raw =
        buildShortcuts R (raw.filter fun e => !e.2.isDisable) := by
  refine ⟨fun b => rfl, ?_⟩
  unfold buildShortcuts
  rw [filterMap_normalize_filter_disable]

/-- C3: The noise filter keeps exactly the records without a key symbol that
resolves to a name starting with "XF86": a record with such a key is removed
even if otherwise unique and well-formed, and a record whose key is absent
or unresolvable is retained. -/
theorem noise_filter_membership (R : Resolver) (bs : List KeyBinding)
    (b : KeyBinding) (hb : b ∈ bs) :
    (b ∈ removeXF86 R bs ↔
      ¬ ∃ k n, b.key = some k ∧ R.resolveName k = some n ∧ strStarts n "XF86" = true)
    ∧ (b.key = none → b ∈ removeXF86 R bs)
    ∧ (∀ k, b.key = some k → R.resolveName k = none → b ∈ removeXF86 R bs) := by
  have hmem : b ∈ removeXF86 R bs ↔ hasXF86Key R b = false := by
    rw [removeXF86, List.mem_filter]
    simp [hb]
  have hiff : b ∈ removeXF86 R bs ↔
      ¬ ∃ k n, b.key = some k ∧ R.resolveName k = some n ∧
        strStarts n "XF86" = true := by
    rw [hmem, ← hasXF86Key_eq_true_iff]
    simp
  refine ⟨hiff, ?_, ?_⟩
  · intro hk
    rw [hmem]
    simp [hasXF86Key, hk]
  · intro k hk hn
    rw [hmem]
    simp [hasXF86Key, hk, hn]

/-- Witness for C3: the media-key record is removed, while the keyless
record and the record with an unresolvable key are retained. -/
theorem noise_filter_membership_witness :
    wX0 ∉ removeXF86 wR wNbs
    ∧ wB2 ∈ removeXF86 wR wNbs
    ∧ wB4 ∈ removeXF86 wR wNbs := by
  refine ⟨?_, ?_, ?_⟩
  · intro hmem
    exact (noise_filter_membership wR wNbs wX0 (by decide)).1.mp hmem
      ⟨9, "XF86AudioMute", rfl, by decide, by decide⟩
  · exact (noise_filter_membership wR wNbs wB2 (by decide)).2.1 rfl
  · exact (noise_filter_membership wR wNbs wB4 (by decide)).2.2 5 rfl (by decide)

/-- C4: The final output is sorted by description in ascending order with no
secondary key, and no two output records share a description, so the order
relation between any two consecutive records is strict. -/
theorem output_sorted_distinct (R : Resolver) (raw : List (Binding × Action)) :
    (buildShortcuts R raw).Pairwise fun a b => a.description < b.description := by
  have hnodupM : ((mergeByDescription R (raw.filterMap normalizeEntry)).map
      (fun r => r.description)).Nodup := by
    rw [map_desc_mergeByDescription]
    exact keysOf_nodup _
  have hsub :
      ((removeXF86 R (mergeByDescription R (raw.filterMap normalizeEntry))).map
        (fun r => r.description)).Sublist
      ((mergeByDescription R (raw.filterMap normalizeEntry)).map
        (fun r => r.description)) :=
    List.Sublist.map _ (List.filter_sublist _)
  have hnodupF := List.Nodup.sublist hsub hnodupM
  set l := removeXF86 R (mergeByDescription R (raw.filterMap normalizeEntry)) with hl
  have hperm : (sortByDescription l).Perm l := List.mergeSort_perm l _
  have hnodupS : ((sortByDescription l).map (fun r => r.description)).Nodup :=
    ((hperm.map _).symm).nodup hnodupF
  have hsorted : (sortByDescription l).Pairwise
      fun a b => a.description ≤ b.description := by
    have hms := @List.sorted_mergeSort KeyBinding
      (fun a b : KeyBinding => decide (a.description ≤ b.description))
      (fun a b c hab hbc => by
        simp only [decide_eq_true_eq] at hab hbc ⊢
        exact le_trans hab hbc)
      (fun a b => by
        rcases le_total a.description b.description with h | h
        · simp [h]
        · simp [h])
      l
    exact hms.imp fun hab => by simpa using hab
  have hne : (sortByDescription l).Pairwise
      fun a b => a.description ≠ b.description :=
    List.pairwise_map.mp hnodupS
  exact (hsorted.and hne).imp fun hab => lt_of_le_of_ne hab.1 hab.2

/-- C5: The single-binding display formatter returns keybind_display
verbatim whenever set, ignoring all other fields; otherwise it joins the
modifier display string (if non-empty) and the key name with the "KEY_"
convention stripped (if a key is present) with " + "; with neither a
modifier nor a key the result is the empty string. -/
theorem display_formatter_cases (R : Resolver) :
    (∀ b : KeyBinding, ∀ s, b.keybind_display = some s → KeyBinding.fmt R b = s)
    ∧ (∀ b : KeyBinding, ∀ k, b.keybind_display = none → b.key = some k →
        b.modifiers.fmt ≠ "" →
        KeyBinding.fmt R b = b.modifiers.fmt ++ " + " ++ stripKEY (R.getName k))
    ∧ (∀ b : KeyBinding, ∀ k, b.keybind_display = none → b.key = some k →
        b.modifiers.fmt = "" → KeyBinding.fmt R b = stripKEY (R.getName k))
    ∧ (∀ b : KeyBinding, b.keybind_display = none → b.key = none →
        KeyBinding.fmt R b = b.modifiers.fmt)
    ∧ (∀ b : KeyBinding, b.keybind_display = none → b.key = none →
        b.modifiers.fmt = "" → KeyBinding.fmt R b = "") := by
  refine ⟨?_, ?_, ?_, ?_, ?_⟩
  · intro b s h
    simp [KeyBinding.fmt, h]
  · intro b k h1 h2 h3
    simp only [KeyBinding.fmt, h1, fmtRaw, h2, if_neg h3]
    rfl
  · intro b k h1 h2 h3
    simp only [KeyBinding.fmt, h1, fmtRaw, h2, if_pos h3]
    rfl
  · intro b h1 h2
    by_cases h3 : b.modifiers.fmt = ""
    · simp only [KeyBinding.fmt, h1, fmtRaw, h2, if_pos h3, h3]
      rfl
    · simp only [KeyBinding.fmt, h1, fmtRaw, h2, if_neg h3]
      rfl
  · intro b h1 h2 h3
    simp only [KeyBinding.fmt, h1, fmtRaw, h2, if_pos h3]
    rfl

/-- Witness for C5 at concrete bindings: verbatim pre-formatted display,
modifier plus stripped key, bare stripped key, bare modifier, and the empty
string with neither. -/
theorem display_formatter_cases_witness :
    KeyBinding.fmt wR wDisp = "X / Y"
    ∧ KeyBinding.fmt wR wB0 = "Super + a"
    ∧ KeyBinding.fmt wR wX0 = "XF86AudioMute"
    ∧ KeyBinding.fmt wR wB3 = "Super"
    ∧ KeyBinding.fmt wR wB2 = "" := by
  refine ⟨(display_formatter_cases wR).1 wDisp "X / Y" rfl, ?_, ?_, ?_, ?_⟩
  · exact ((display_formatter_cases wR).2.1 wB0 0 rfl rfl (by decide)).trans (by decide)
  · exact ((display_formatter_cases wR).2.2.1 wX0 9 rfl rfl (by decide)).trans (by decide)
  · exact ((display_formatter_cases wR).2.2.2.1 wB3 rfl rfl).trans (by decide)
  · exact (display_formatter_cases wR).2.2.2.2 wB2 rfl rfl (by decide)

theorem buildShortcuts_nil (R : Resolver) : buildShortcuts R [] = [] := by
  simp [buildShortcuts, sortByDescription, removeXF86, mergeByDescription, keysOf]

/-- C6: Provider unavailability degrades to an empty, valid list at the
presentation boundary; an empty snapshot yields an empty, non-error output;
provider unavailability is the only failure mode of
`load_cosmic_shortcuts`. -/
theorem load_error_handling (R : Resolver) :
    initShortcuts R none = []
    ∧ load_cosmic_shortcuts R (some []) = Except.ok []
    ∧ (∀ provider, (∃ e, load_cosmic_shortcuts R provider = Except.error e) ↔
        provider = none)
    ∧ (∀ raw, initShortcuts R (some raw) = buildShortcuts R raw) := by
  have hempty : load_cosmic_shortcuts R (some []) = Except.ok [] := by
    show Except.ok (buildShortcuts R []) = Except.ok []
    rw [buildShortcuts_nil R]
  refine ⟨rfl, hempty, ?_, fun raw => rfl⟩
  intro provider
  cases provider with
  | none => simp [load_cosmic_shortcuts]
  | some raw => simp [load_cosmic_shortcuts]

/-- Witness for C6: provider failure gives the empty list, the empty
snapshot gives the empty ok result, and the failing provider is reported as
an error by the loader. -/
theorem load_error_handling_witness :
    initShortcuts wR none = []
    ∧ load_cosmic_shortcuts wR (some []) = Except.ok []
    ∧ (∃ e, load_cosmic_shortcuts wR none = Except.error e) := by
  refine ⟨(load_error_handling wR).1, (load_error_handling wR).2.1, ?_⟩
  exact ((load_error_handling wR).2.2.1 none).mpr rfl

/-- C7 counterexample: the claim says every variant, including spawn, maps
to a non-empty description, but the spawn description is the carried command
verbatim, so the spawn of the empty command maps to the empty string. -/
theorem localize_action_empty_spawn :
    localize_action (Action.Spawn "") = ""
    ∧ ¬ ∀ a : Action, localize_action a ≠ "" :=
  ⟨rfl, fun h => h (Action.Spawn "") rfl⟩

/-- C7 amended: the action describer is total over the closed enumeration;
the spawn variant's description is its carried command string verbatim (and
hence empty exactly when the command is empty), and every non-spawn variant
maps to a non-empty description string. -/
theorem localize_action_amended :
    (∀ task, localize_action (Action.Spawn task) = task)
    ∧ ∀ a : Action, a.isSpawn = false → localize_action a ≠ "" := by
  refine ⟨fun task => rfl, ?_⟩
  intro a ha
  cases a
  case Spawn task => simp [Action.isSpawn] at ha
  case Workspace i =>
    exact append_left_ne_empty "Workspace " (toString i) (by decide)
  case MoveToWorkspace i =>
    exact append_left_ne_empty "Move window to workspace " (toString i) (by decide)
  case SendToWorkspace i =>
    exact append_left_ne_empty "Move window to workspace " (toString i) (by decide)
  case Focus d => cases d <;> decide
  case Move d => cases d <;> decide
  case MoveToOutput d => cases d <;> decide
  case SendToOutput d => cases d <;> decide
  case SwitchOutput d => cases d <;> decide
  case MigrateWorkspaceToOutput d => cases d <;> decide
  case Orientation o => cases o <;> decide
  case Resizing r => cases r <;> decide
  case System s => cases s <;> decide
  all_goals decide

/-- Witness for C7 (amended): a spawn description is its command verbatim,
and a non-spawn variant has a non-empty description. -/
theorem localize_action_amended_witness :
    localize_action (Action.Spawn "firefox") = "firefox"
    ∧ localize_action Action.Close ≠ "" :=
  ⟨localize_action_amended.1 "firefox",
    localize_action_amended.2 Action.Close rfl⟩

/-- C8: The modifier display string lists exactly the asserted flags in the
fixed order Super, Ctrl, Alt, Shift, omits absent flags, joins with " + ",
and is empty when no flag is set — extensionally, it equals the sixteen-entry
table prescribed by the spec. -/
theorem modifiers_fmt_table :
    ∀ m : Modifiers, Modifiers.fmt m = modifiersSpecTable m := by
  intro m
  obtain ⟨c, a, s, l⟩ := m
  cases c <;> cases a <;> cases s <;> cases l <;> rfl

end Keypeek
